import Mathlib

/-!
Verification of the user-management CLI (`app/cli.py`).

The repository's command handlers live in `src/app/cli.py`; the storage
layer (`app/models.py` with the `User` model and its unique constraints,
`app/database.py` with the session manager) is not part of the sources,
so its behaviour is modelled from the specification: a database state is
a list of user rows plus an autoincrement counter, inserts and updates
enforce the uniqueness of `username` and `email`, and the query
primitives (equality filter, case-insensitive LIKE, offset/limit) are
given their standard SQL semantics.

Each handler is embedded as a function from a database state (and its
arguments) to the resulting database state together with the list of
lines it prints.  `change_email` alone returns an `Except`, because its
commit can raise a storage-layer integrity error that the handler does
not catch.
-/

/-- Modelled from the spec: the `User` entity of the missing
`app/models.py` — `id` (surrogate key assigned by storage), `username`,
`email`, `password`, all strings stored verbatim. -/
structure User where
  id : Nat
  username : String
  email : String
  password : String
deriving DecidableEq

/-- Modelled from the spec: the persisted state owned by the storage
engine — the rows of the single user table plus the autoincrement
counter used to assign the next `id`. -/
structure DBState where
  users : List User
  nextId : Nat
deriving DecidableEq

/-- Modelled from the spec: inserting a row lets the storage layer
assign the next surrogate `id` and appends the row in natural order. -/
def insertRow (db : DBState) (u e p : String) : DBState :=
  ⟨db.users ++ [⟨db.nextId, u, e, p⟩], db.nextId + 1⟩

/-- Modelled from the spec: the uniqueness invariant checked by the
storage engine on insert — a new row conflicts when its username or its
email already occurs in the table. -/
def insertConflict (db : DBState) (u e : String) : Bool :=
  db.users.any (fun x => x.username == u || x.email == e)

/-- Modelled from the spec: the printable rendering of a user row (the
`User` model's string form is not in the sources). -/
def showUser (u : User) : String :=
  toString u.id ++ " - " ++ u.username ++ " - " ++ u.email

/-- Modelled from the spec: SQL LIKE matching over characters — `%`
matches any sequence, `_` matches any single character, any other
pattern character matches itself. -/
def likeMatch : List Char → List Char → Bool
  | [], s => s.isEmpty
  | c :: ps, s =>
    if c = '%' then s.tails.any (fun t => likeMatch ps t)
    else
      match s with
      | [] => false
      | d :: s' => (c = '_' || c = d) && likeMatch ps s'

/-- Modelled from the spec: case-insensitive LIKE (`ilike`) — both the
string and the pattern are lowercased before LIKE matching. -/
def ilike (s pattern : String) : Bool :=
  likeMatch (pattern.toList.map Char.toLower) (s.toList.map Char.toLower)

/-- Case-insensitive literal-substring containment, used to state what
the spec asserts about `find_user`. -/
def containsCI (s q : String) : Prop :=
  List.IsInfix (q.toList.map Char.toLower) (s.toList.map Char.toLower)

instance (s q : String) : Decidable (containsCI s q) :=
  List.decidableInfix _ _

/-- Storage-layer errors that a handler may leave uncaught. -/
inductive StorageError where
  | integrityError
deriving DecidableEq

/-- `initialize`: drop all tables, recreate them, insert the seed user
`bob`/`bob@mail.com`/`bobpass`, commit, refresh, print the banner
(`cli.py`).  Dropping and recreating the tables yields the empty state
with the autoincrement counter reset. -/
def initializeDb (_db : DBState) : DBState × List String :=
  let fresh : DBState := ⟨[], 1⟩
  (insertRow fresh "bob" "bob@mail.com" "bobpass", ["Database Initialized"])

/-- `get_user`: select the first row with the exact username; print it,
or print a not-found line (`cli.py`). -/
def get_user (db : DBState) (username : String) : DBState × List String :=
  match db.users.find? (fun x => x.username == username) with
  | none => (db, [username ++ " not found!"])
  | some user => (db, [showUser user])

/-- `get_all_users`: select every row; print them all, or a message when
the table is empty (`cli.py`). -/
def get_all_users (db : DBState) : DBState × List String :=
  let all_users := db.users
  if all_users.isEmpty then (db, ["No users found"])
  else (db, all_users.map showUser)

/-- `change_email`: look the user up by exact username; absent → print a
not-found line and return.  Present → set the email and commit.  The
commit violates the email uniqueness constraint when another row already
has `new_email`; `cli.py` wraps this commit in no `try`, so the
integrity error propagates as `Except.error`. -/
def change_email (db : DBState) (username new_email : String) :
    Except StorageError (DBState × List String) :=
  match db.users.find? (fun x => x.username == username) with
  | none => Except.ok (db, [username ++ " not found! Unable to update email."])
  | some user =>
    if db.users.any (fun x => x.id != user.id && x.email == new_email) then
      Except.error StorageError.integrityError
    else
      Except.ok
        (⟨db.users.map (fun x => if x.id == user.id then { x with email := new_email } else x),
          db.nextId⟩,
         ["Updated " ++ username ++ "\x27s email to " ++ new_email])

/-- `create_user`: add the new row and commit inside `try`; an integrity
error (duplicate username or email) is caught, the transaction rolled
back and one conflict line printed; otherwise the new row is printed
(`cli.py`). -/
def create_user (db : DBState) (username email password : String) :
    DBState × List String :=
  if insertConflict db username email then
    (db, ["Username or email already taken!"])
  else
    let db' := insertRow db username email password
    (db', [showUser ⟨db.nextId, username, email, password⟩])

/-- `delete_user`: look the user up by exact username; absent → print a
not-found line; present → delete the row (by primary key) and commit
(`cli.py`). -/
def delete_user (db : DBState) (username : String) : DBState × List String :=
  match db.users.find? (fun x => x.username == username) with
  | none => (db, [username ++ " not found! Unable to delete user."])
  | some user =>
    (⟨db.users.filter (fun x => x.id != user.id), db.nextId⟩, [username ++ " deleted"])

/-- The rows selected by `find_user`: username or email `ilike`
`"%" ++ query ++ "%"` (`cli.py`). -/
def findUserRows (db : DBState) (query : String) : List User :=
  db.users.filter (fun u =>
    ilike u.username ("%" ++ query ++ "%") || ilike u.email ("%" ++ query ++ "%"))

/-- `find_user`: print every matching row, or a no-match line
(`cli.py`). -/
def find_user (db : DBState) (query : String) : DBState × List String :=
  let users := findUserRows db query
  if users.isEmpty then (db, ["No users found matching \x27" ++ query ++ "\x27"])
  else (db, users.map showUser)

/-- The rows selected by `list_users`: offset then limit over the
natural order (`cli.py`); the pagination primitives are modelled from
the spec, negative values clamping to zero. -/
def listUserRows (db : DBState) (limit offset : Int) : List User :=
  ((db.users.drop offset.toNat).take limit.toNat)

/-- `list_users`: print the selected page, with no special case for an
empty page (`cli.py`). -/
def list_users (db : DBState) (limit offset : Int) : DBState × List String :=
  (db, (listUserRows db limit offset).map showUser)

/-- The seed row inserted by `initializeDb`. -/
def bobUser : User := ⟨1, "bob", "bob@mail.com", "bobpass"⟩

/-- A one-row sample database used for concrete counterexamples. -/
def sampleDb : DBState := ⟨[bobUser], 2⟩

/-- A two-row sample database (bob and alice) for concrete witnesses. -/
def pairDb : DBState := ⟨[bobUser, ⟨2, "alice", "a@x.com", "pw"⟩], 3⟩

/-- C1: with a user of username `u` already present, `create_user u e2 p2`
leaves the state unchanged (rollback, no partial write) and prints the
single conflict line, propagating no storage error. -/
theorem C1_create_user_conflict (db : DBState) (u e2 p2 : String)
    (h : ∃ x ∈ db.users, x.username = u) :
    create_user db u e2 p2 = (db, ["Username or email already taken!"]) := by
  have hc : insertConflict db u e2 = true := by
    rcases h with ⟨x, hx, hxu⟩
    unfold insertConflict
    rw [List.any_eq_true]
    exact ⟨x, hx, by simp [hxu]⟩
  simp [create_user, hc]

theorem C1_create_user_conflict_witness :
    (∃ x ∈ sampleDb.users, x.username = "bob")
    ∧ create_user sampleDb "bob" "other@mail.com" "pw2"
        = (sampleDb, ["Username or email already taken!"]) :=
  ⟨by decide, C1_create_user_conflict sampleDb "bob" "other@mail.com" "pw2" (by decide)⟩

/-- C2: when `create_user u e p` succeeds (no uniqueness conflict), a
subsequent `get_user u` finds exactly the row with username `u`, email
`e` and the storage-assigned id, and prints it. -/
theorem C2_create_then_get (db : DBState) (u e p : String)
    (h : insertConflict db u e = false) :
    (create_user db u e p).fst.users.find? (fun x => x.username == u)
        = some ⟨db.nextId, u, e, p⟩
    ∧ get_user (create_user db u e p).fst u
        = ((create_user db u e p).fst, [showUser ⟨db.nextId, u, e, p⟩]) := by
  have hnone : db.users.find? (fun x => x.username == u) = none := by
    rw [List.find?_eq_none]
    intro x hx hbeq
    simp only [insertConflict, List.any_eq_false] at h
    exact h x hx (by simp [hbeq])
  have hfind : (create_user db u e p).fst.users.find? (fun x => x.username == u)
      = some ⟨db.nextId, u, e, p⟩ := by
    simp [create_user, h, insertRow, List.find?_append, hnone]
  exact ⟨hfind, by simp [get_user, hfind]⟩

theorem C2_create_then_get_witness :
    insertConflict sampleDb "alice" "a@x.com" = false
    ∧ ((create_user sampleDb "alice" "a@x.com" "pw").fst.users.find?
          (fun x => x.username == "alice") = some ⟨sampleDb.nextId, "alice", "a@x.com", "pw"⟩
       ∧ get_user (create_user sampleDb "alice" "a@x.com" "pw").fst "alice"
          = ((create_user sampleDb "alice" "a@x.com" "pw").fst,
             [showUser ⟨sampleDb.nextId, "alice", "a@x.com", "pw"⟩])) :=
  ⟨by decide, C2_create_then_get sampleDb "alice" "a@x.com" "pw" (by decide)⟩

/-- C3: `initialize` is idempotent on the database state — after each of
two successive calls the table holds exactly the seed user bob, the
second call discarding all state left by the first. -/
theorem C3_initialize_idempotent (db : DBState) :
    (initializeDb ((initializeDb db).fst)).fst = (initializeDb db).fst
    ∧ (initializeDb db).fst.users = [bobUser]
    ∧ (initializeDb ((initializeDb db).fst)).fst.users = [bobUser] :=
  ⟨rfl, rfl, rfl⟩

/-- C5: `list_users limit offset` selects the rows left after skipping
the first `offset` rows of the natural order, at most `limit` of them;
`list_users 0 0` selects nothing and prints nothing. -/
theorem C5_list_users_pagination (db : DBState) (limit offset : Int) :
    (listUserRows db limit offset).length ≤ limit.toNat
    ∧ listUserRows db limit offset = (db.users.drop offset.toNat).take limit.toNat
    ∧ listUserRows db 0 0 = []
    ∧ list_users db 0 0 = (db, []) := by
  refine ⟨List.length_take_le _ _, rfl, by simp [listUserRows], by simp [list_users, listUserRows]⟩

/-- C6: `change_email` on an absent username returns the state untouched
(every row and the row count unchanged), printing a not-found line and
raising no error. -/
theorem C6_change_email_missing (db : DBState) (u ne : String)
    (h : ∀ x ∈ db.users, x.username ≠ u) :
    change_email db u ne
      = Except.ok (db, [u ++ " not found! Unable to update email."]) := by
  have hnone : db.users.find? (fun x => x.username == u) = none := by
    rw [List.find?_eq_none]
    intro x hx
    simpa using h x hx
  simp [change_email, hnone]

theorem C6_change_email_missing_witness :
    (∀ x ∈ sampleDb.users, x.username ≠ "carol")
    ∧ change_email sampleDb "carol" "c@x.com"
        = Except.ok (sampleDb, ["carol not found! Unable to update email."]) :=
  ⟨by decide, C6_change_email_missing sampleDb "carol" "c@x.com" (by decide)⟩

/-- C7: from any starting state, `initialize` then
`create_user "alice" "a@x.com" "pw"` yields exactly the rows
`[bob, alice]` in natural order (as `get_all_users` reports), and a
further `delete_user "bob"` leaves exactly `[alice]`. -/
theorem C7_end_to_end (db : DBState) :
    (create_user (initializeDb db).fst "alice" "a@x.com" "pw").fst.users
        = [bobUser, ⟨2, "alice", "a@x.com", "pw"⟩]
    ∧ get_all_users (create_user (initializeDb db).fst "alice" "a@x.com" "pw").fst
        = ((create_user (initializeDb db).fst "alice" "a@x.com" "pw").fst,
           [showUser bobUser, showUser ⟨2, "alice", "a@x.com", "pw"⟩])
    ∧ (delete_user (create_user (initializeDb db).fst "alice" "a@x.com" "pw").fst "bob").fst.users
        = [⟨2, "alice", "a@x.com", "pw"⟩]
    ∧ get_all_users
        (delete_user (create_user (initializeDb db).fst "alice" "a@x.com" "pw").fst "bob").fst
        = ((delete_user (create_user (initializeDb db).fst "alice" "a@x.com" "pw").fst "bob").fst,
           [showUser ⟨2, "alice", "a@x.com", "pw"⟩]) := by
  exact ⟨rfl, rfl, rfl, rfl⟩

/-- C8: when a row with username `u` exists and `new_email` duplicates
the email of a different row, `change_email` hits the email uniqueness
constraint and the integrity error escapes uncaught — no rollback, no
conflict message. -/
theorem C8_change_email_integrity (db : DBState) (u ne : String) (w : User)
    (hfind : db.users.find? (fun x => x.username == u) = some w)
    (hdup : ∃ x ∈ db.users, x.id ≠ w.id ∧ x.email = ne) :
    change_email db u ne = Except.error StorageError.integrityError := by
  have hany : db.users.any (fun x => x.id != w.id && x.email == ne) = true := by
    rcases hdup with ⟨x, hx, hid, hem⟩
    rw [List.any_eq_true]
    exact ⟨x, hx, by simp [hid, hem]⟩
  simp [change_email, hfind, hany]

theorem C8_change_email_integrity_witness :
    pairDb.users.find? (fun x => x.username == "bob") = some bobUser
    ∧ (∃ x ∈ pairDb.users, x.id ≠ bobUser.id ∧ x.email = "a@x.com")
    ∧ change_email pairDb "bob" "a@x.com" = Except.error StorageError.integrityError :=
  ⟨by decide, by decide,
   C8_change_email_integrity pairDb "bob" "a@x.com" bobUser (by decide) (by decide)⟩

/-- C10: the read-only commands `get_user`, `get_all_users`, `find_user`
and `list_users` leave the database state exactly as they found it. -/
theorem C10_readonly_frame (db : DBState) (u q : String) (limit offset : Int) :
    (get_user db u).fst = db
    ∧ (get_all_users db).fst = db
    ∧ (find_user db q).fst = db
    ∧ (list_users db limit offset).fst = db := by
  refine ⟨?_, ?_, ?_, rfl⟩
  · cases hf : db.users.find? (fun x => x.username == u) <;> simp [get_user, hf]
  · by_cases h : db.users.isEmpty <;> simp [get_all_users, h]
  · by_cases h : (findUserRows db q).isEmpty <;> simp [find_user, h]

/-- A character list free of the LIKE wildcards `%` and `_`. -/
def noWild (l : List Char) : Prop :=
  ∀ c ∈ l, c ≠ '%' ∧ c ≠ '_'

theorem toLower_wildcard {c w : Char} (hw : w = '%' ∨ w = '_')
    (h : Char.toLower c = w) : c = w := by
  have hdef : Char.toLower c
      = if c.toNat ≥ 65 ∧ c.toNat ≤ 90 then Char.ofNat (c.toNat + 32) else c := rfl
  rw [hdef] at h
  by_cases hc : c.toNat ≥ 65 ∧ c.toNat ≤ 90
  · rw [if_pos hc] at h
    exfalso
    obtain ⟨hlo, hhi⟩ := hc
    have hv : (c.toNat + 32).isValidChar := Or.inl (by omega)
    have ht : (Char.ofNat (c.toNat + 32)).toNat = c.toNat + 32 := by
      unfold Char.ofNat
      rw [dif_pos hv]
      rfl
    rw [h] at ht
    rcases hw with hw | hw <;> rw [hw] at ht
    · rw [show Char.toNat '%' = 37 from rfl] at ht
      omega
    · rw [show Char.toNat '_' = 95 from rfl] at ht
      omega
  · rw [if_neg hc] at h
    exact h

theorem noWild_toLower (q : String)
    (hq : ∀ c ∈ q.toList, c ≠ '%' ∧ c ≠ '_') :
    noWild (q.toList.map Char.toLower) := by
  intro d hd
  rcases List.mem_map.mp hd with ⟨c, hc, rfl⟩
  exact ⟨fun hl => (hq c hc).1 (toLower_wildcard (Or.inl rfl) hl),
         fun hl => (hq c hc).2 (toLower_wildcard (Or.inr rfl) hl)⟩

theorem likeMatch_percent (ps s : List Char) :
    likeMatch ('%' :: ps) s = true ↔ ∃ t, t <:+ s ∧ likeMatch ps t = true := by
  simp [likeMatch, List.mem_tails]

theorem likeMatch_litPercent (lit : List Char) (h : noWild lit) (s : List Char) :
    likeMatch (lit ++ ['%']) s = true ↔ lit <+: s := by
  revert h
  induction lit generalizing s with
  | nil =>
    intro _
    rw [List.nil_append, likeMatch_percent]
    constructor
    · intro _
      exact List.nil_prefix
    · intro _
      exact ⟨[], List.nil_suffix, rfl⟩
  | cons c cs ih =>
    intro h
    have hc1 : c ≠ '%' := (h c (List.mem_cons_self c cs)).1
    have hc2 : c ≠ '_' := (h c (List.mem_cons_self c cs)).2
    have hcs : noWild cs := fun d hd => h d (List.mem_cons_of_mem c hd)
    cases s with
    | nil => simp [likeMatch, hc1]
    | cons d s' => simp [likeMatch, hc1, hc2, List.cons_prefix_cons, ih s' hcs]

theorem likeMatch_surround (lit : List Char) (h : noWild lit) (s : List Char) :
    likeMatch ('%' :: (lit ++ ['%'])) s = true ↔ List.IsInfix lit s := by
  rw [likeMatch_percent]
  constructor
  · rintro ⟨t, ⟨u, hu⟩, hlm⟩
    rcases (likeMatch_litPercent lit h t).mp hlm with ⟨v, hv⟩
    exact ⟨u, v, by rw [List.append_assoc, hv, hu]⟩
  · rintro ⟨u, v, huv⟩
    exact ⟨lit ++ v, ⟨u, by rw [← List.append_assoc]; exact huv⟩,
           (likeMatch_litPercent lit h (lit ++ v)).mpr ⟨v, rfl⟩⟩

theorem ilike_eq_containsCI (s q : String)
    (h : noWild (q.toList.map Char.toLower)) :
    (ilike s ("%" ++ q ++ "%") = true) ↔ containsCI s q := by
  have hpat : ("%" ++ q ++ "%").toList.map Char.toLower
      = '%' :: (q.toList.map Char.toLower ++ ['%']) := by
    rw [show ("%" ++ q ++ "%").toList = '%' :: (q.toList ++ ['%']) from rfl]
    rw [List.map_cons, List.map_append]
    rw [show Char.toLower '%' = '%' from rfl]
    rfl
  unfold ilike containsCI
  rw [hpat]
  exact likeMatch_surround (q.toList.map Char.toLower) h (s.toList.map Char.toLower)

/-- C4 (amended): for a query free of the LIKE wildcards `%` and `_`,
`find_user` selects exactly the users whose username or email contains
the query as a case-insensitive substring, and the empty query selects
every user. -/
theorem C4_find_user_substring (db : DBState) (q : String)
    (hq : ∀ c ∈ q.toList, c ≠ '%' ∧ c ≠ '_') :
    findUserRows db q
      = db.users.filter (fun u =>
          decide (containsCI u.username q) || decide (containsCI u.email q))
    ∧ findUserRows db "" = db.users := by
  have hall : ∀ s : String, ilike s "%%" = true := by
    intro s
    have h0 : noWild (("" : String).toList.map Char.toLower) := by
      intro c hc
      simp at hc
    have h1 := (ilike_eq_containsCI s "" h0).mpr ⟨[], s.toList.map Char.toLower, by simp⟩
    rw [show ("%" ++ "" ++ "%" : String) = "%%" from rfl] at h1
    exact h1
  constructor
  · unfold findUserRows
    apply List.filter_congr
    intro u _
    have h1 := ilike_eq_containsCI u.username q (noWild_toLower q hq)
    have h2 := ilike_eq_containsCI u.email q (noWild_toLower q hq)
    have e1 : ilike u.username ("%" ++ q ++ "%") = decide (containsCI u.username q) := by
      rw [Bool.eq_iff_iff]
      simp [h1]
    have e2 : ilike u.email ("%" ++ q ++ "%") = decide (containsCI u.email q) := by
      rw [Bool.eq_iff_iff]
      simp [h2]
    rw [e1, e2]
  · unfold findUserRows
    rw [List.filter_eq_self]
    intro u _
    simp only [Bool.or_eq_true]
    exact Or.inl (hall u.username)

theorem C4_find_user_substring_witness :
    (∀ c ∈ ("ob" : String).toList, c ≠ '%' ∧ c ≠ '_')
    ∧ (findUserRows sampleDb "ob"
        = sampleDb.users.filter (fun u =>
            decide (containsCI u.username "ob") || decide (containsCI u.email "ob"))
       ∧ findUserRows sampleDb "" = sampleDb.users) :=
  ⟨by decide, C4_find_user_substring sampleDb "ob" (by decide)⟩

/-- C4, as stated, fails: for the query `"_"` on a database holding only
bob, `find_user` selects bob although neither his username nor his email
contains `"_"` as a (case-insensitive) substring. -/
theorem C4_find_user_claim_refuted :
    findUserRows sampleDb "_" = [bobUser]
    ∧ sampleDb.users.filter (fun u =>
        decide (containsCI u.username "_") || decide (containsCI u.email "_")) = [] := by
  exact ⟨by decide, by decide⟩

/-- C9: the query is spliced unescaped into the pattern, so for the
query `"%"` every user matches — in particular bob, whose username and
email do not contain `"%"` literally. -/
theorem C9_wildcard_query :
    findUserRows sampleDb "%" = [bobUser]
    ∧ ¬ containsCI bobUser.username "%"
    ∧ ¬ containsCI bobUser.email "%" := by
  exact ⟨by decide, by decide, by decide⟩
